import Mathlib

/-!
Verification development for the Office-Project-Tracker pipeline
(`office_tracker.py`).  The Python functions that the claims refer to are
embedded as executable Lean definitions: pure string/regex processing is
translated directly, the SQLite tables (`projects`, `companies`,
`locations`) become lists of records threaded through the operations, and
the external collaborators (Google search, page fetch, the MD5 digest,
SMTP) are modelled as explicit parameters.  Machine details that cannot
affect the claims are documented at the definition that abstracts them.
-/

set_option maxRecDepth 20000

namespace OfficeTracker

/-! ### Basic character/string utilities mirroring Python primitives -/

/-- The apostrophe character (written via its code point to keep source
scanning simple). -/
def apostropheChar : Char := Char.ofNat 39

/-- The double-quote character. -/
def quoteChar : Char := Char.ofNat 34

/-- Python `\s` / `str.split()` whitespace.  Python also treats a few rare
Unicode spaces as whitespace; none of the texts handled by the tracker
contain them, so the ASCII set suffices. -/
def isSpaceCh (c : Char) : Bool :=
  c == ' ' || c == '\t' || c == '\n' || c == '\r' || c.toNat == 11 || c.toNat == 12

/-- Greek and Greek-extended Unicode blocks `Ͱ-Ͽἀ-῿`,
exactly the ranges that appear in the source's character classes. -/
def isGreekBlock (c : Char) : Bool :=
  (0x370 ≤ c.toNat && c.toNat ≤ 0x3FF) || (0x1F00 ≤ c.toNat && c.toNat ≤ 0x1FFF)

/-- Python `\w` restricted to the scripts the tracker processes (ASCII and
Greek).  Full Unicode `\w` covers more scripts, but every text reaching the
extractors is English/Greek. -/
def isWordChar (c : Char) : Bool :=
  (65 ≤ c.toNat && c.toNat ≤ 90) || (97 ≤ c.toNat && c.toNat ≤ 122) ||
  (48 ≤ c.toNat && c.toNat ≤ 57) || c == '_' || isGreekBlock c

/-- Per-character model of Python `str.lower()` for ASCII and Greek.
Python additionally lower-cases a word-final capital sigma to the final
form `ς`; the tracker's inputs relevant to the claims contain no capital
sigma, so the plain char-wise mapping is used. -/
def pyLowerChar (c : Char) : Char :=
  if 65 ≤ c.toNat && c.toNat ≤ 90 then Char.ofNat (c.toNat + 32)
  else if 0x391 ≤ c.toNat && c.toNat ≤ 0x3A9 then Char.ofNat (c.toNat + 32)
  else if c = 'Ά' then 'ά' else if c = 'Έ' then 'έ' else if c = 'Ή' then 'ή'
  else if c = 'Ί' then 'ί' else if c = 'Ό' then 'ό' else if c = 'Ύ' then 'ύ'
  else if c = 'Ώ' then 'ώ' else if c = 'Ϊ' then 'ϊ' else if c = 'Ϋ' then 'ϋ'
  else c

/-- ASCII-only lower-casing, the folding SQLite's `LIKE` applies. -/
def asciiLowerChar (c : Char) : Char :=
  if 65 ≤ c.toNat && c.toNat ≤ 90 then Char.ofNat (c.toNat + 32) else c

/-- Boolean prefix test on character lists. -/
def isPrefixOfCh : List Char → List Char → Bool
  | [], _ => true
  | _ :: _, [] => false
  | a :: as, b :: bs => a == b && isPrefixOfCh as bs

/-- Python's substring operator `needle in hay` on strings. -/
def containsSub (needle : List Char) : List Char → Bool
  | [] => needle.isEmpty
  | c :: rest => isPrefixOfCh needle (c :: rest) || containsSub needle rest

/-- Helper for Python `str.split()`: accumulate the current word (reversed). -/
def splitWsAux : List Char → List Char → List (List Char)
  | [], cur => if cur.isEmpty then [] else [cur.reverse]
  | c :: rest, cur =>
    if isSpaceCh c then
      if cur.isEmpty then splitWsAux rest [] else cur.reverse :: splitWsAux rest []
    else splitWsAux rest (c :: cur)

/-- Python `str.split()` with no argument: split on whitespace runs,
dropping empty tokens. -/
def splitWs (s : List Char) : List (List Char) := splitWsAux s []

/-- Python `str.strip()`: drop leading and trailing whitespace. -/
def pyStrip (s : List Char) : List Char :=
  ((s.dropWhile isSpaceCh).reverse.dropWhile isSpaceCh).reverse

/-- Map `str.lower()` (as modelled char-wise) over a string. -/
def pyLower (s : String) : String := String.mk (s.data.map pyLowerChar)

/-- Map ASCII lower-casing over a string. -/
def asciiLower (s : String) : String := String.mk (s.data.map asciiLowerChar)

/-! ### Language detection (`detect_language`, source lines 67-80) -/

/-- The explicit Greek character set from source line 74. -/
def greek_chars : List Char :=
  "αβγδεζηθικλμνξοπρστυφχψωάέήίόύώϊϋΑΒΓΔΕΖΗΘΙΚΛΜΝΞΟΠΡΣΤΥΦΧΨΩΆΈΉΊΌΎΏΪΫ".data

/-- Source `detect_language`.  The Python guard
`if not text or not isinstance(text, str)` collapses to the empty-string
test in this embedding (a non-string argument takes the same branch).
The float comparison `greek_count > len(sample) * 0.3` is modelled as the
exact rational comparison `10 * greek_count > 3 * len(sample)`: for every
sample length `n ≤ 100` the double `n * 0.3` rounds to a value strictly
between the same pair of integers as the exact product (for multiples of
ten the product rounds to the exact integer), so the two comparisons agree
on all integer counts. -/
def detect_language (text : String) : String :=
  if text = "" then "unknown"
  else
    let sample := (text.data.take 100).map pyLowerChar
    let greek_count := (sample.filter (fun c => greek_chars.contains c)).length
    if greek_count * 10 > sample.length * 3 then "el" else "en"

/-! ### A bounded backtracking matcher for the source's `re` patterns

Every regular expression in `office_tracker.py` is built from literals,
bounded or unbounded character-class repetitions (greedy or lazy),
ordered alternation, an optional group, a single capturing group and the
word-boundary assertion.  `Re` is that fragment and `reRun` implements
Python `re`'s leftmost search with its backtracking order (alternatives
tried left to right, greedy repetitions longest first, lazy repetitions
shortest first).  Fuel bounds the recursion; 500 exceeds the backtracking
depth of every pattern in the source by a wide margin. -/

inductive Re where
  | cls (p : Char → Bool) (lo : Nat) (hi : Option Nat) (lzy : Bool)
  | lit (s : List Char)
  | litCI (s : List Char)
  | alt (rs : List Re)
  | seqAll (rs : List Re)
  | opt (r : Re)
  | grp (r : Re)
  | wb

/-- States `(previous char, remaining input)` after consuming
`0, 1, ..., min(run, budget)` characters of the class `p`, in increasing
order of consumption. -/
def clsStates (p : Char → Bool) : Nat → Option Char → List Char →
    List (Option Char × List Char)
  | 0, prev, s => [(prev, s)]
  | Nat.succ b, prev, s =>
    (prev, s) :: (match s with
      | [] => []
      | c :: rest => if p c then clsStates p b (some c) rest else [])

/-- First successful application of `f` over a list of candidates. -/
def firstSome {α β : Type} (f : α → Option β) : List α → Option β
  | [] => none
  | x :: rest =>
    match f x with
    | some r => some r
    | none => firstSome f rest

/-- The character preceding the position reached after consuming `n`
characters of `s` (used by the word-boundary assertion). -/
def prevAfter (prev : Option Char) (s : List Char) (n : Nat) : Option Char :=
  if n = 0 then prev else s.get? (n - 1)

/-- Case-insensitive character-list prefix test. -/
def isPrefixOfCI : List Char → List Char → Bool
  | [], _ => true
  | _ :: _, [] => false
  | a :: as, b :: bs => pyLowerChar a == pyLowerChar b && isPrefixOfCI as bs

/-- Last character of a consumed literal, falling back to the previous one. -/
def lastOf (consumed : List Char) (prev : Option Char) : Option Char :=
  match consumed.getLast? with
  | some c => some c
  | none => prev

/-- Backtracking matcher in continuation-passing style.  The continuation
receives the previous character, the remaining input and the capture of
group 1 (if already matched); the overall result is the capture together
with the input remaining after the whole match. -/
def reRun : Nat → Re → Option Char → List Char → Option (List Char) →
    (Option Char → List Char → Option (List Char) →
      Option (Option (List Char) × List Char)) →
    Option (Option (List Char) × List Char)
  | 0, _, _, _, _, _ => none
  | Nat.succ _, Re.lit cs, prev, s, cap, k =>
    if isPrefixOfCh cs s then k (lastOf cs prev) (s.drop cs.length) cap else none
  | Nat.succ _, Re.litCI cs, prev, s, cap, k =>
    if isPrefixOfCI cs s then
      k (lastOf (s.take cs.length) prev) (s.drop cs.length) cap
    else none
  | Nat.succ _, Re.cls p lo hi lzy, prev, s, cap, k =>
    let budget := match hi with
      | some h => h
      | none => s.length
    let states := (clsStates p budget prev s).drop lo
    let ordered := if lzy then states else states.reverse
    firstSome (fun st => k st.1 st.2 cap) ordered
  | Nat.succ _, Re.alt [], _, _, _, _ => none
  | Nat.succ f, Re.alt (r :: rs), prev, s, cap, k =>
    match reRun f r prev s cap k with
    | some res => some res
    | none => reRun f (Re.alt rs) prev s cap k
  | Nat.succ _, Re.seqAll [], prev, s, cap, k => k prev s cap
  | Nat.succ f, Re.seqAll (r :: rs), prev, s, cap, k =>
    reRun f r prev s cap (fun p2 s2 c2 => reRun f (Re.seqAll rs) p2 s2 c2 k)
  | Nat.succ f, Re.opt r, prev, s, cap, k =>
    match reRun f r prev s cap k with
    | some res => some res
    | none => k prev s cap
  | Nat.succ f, Re.grp r, prev, s, cap, k =>
    reRun f r prev s cap (fun p2 s2 _ => k p2 s2 (some (s.take (s.length - s2.length))))
  | Nat.succ _, Re.wb, prev, s, cap, k =>
    let a := match prev with
      | some c => isWordChar c
      | none => false
    let b := match s with
      | c :: _ => isWordChar c
      | [] => false
    if a != b then k prev s cap else none

/-- Try to match `r` at the current position. -/
def reFind (r : Re) (prev : Option Char) (s : List Char) :
    Option (Option (List Char) × List Char) :=
  reRun 500 r prev s none (fun _ rest cap => some (cap, rest))

/-- Scan loop of `re.finditer`/`re.findall`: try each position left to
right; on a match record the capture of group 1 (or the whole match when
the pattern has no group) and resume after the match. -/
def reScan (r : Re) : Nat → Option Char → List Char → List (List Char)
  | 0, _, _ => []
  | Nat.succ f, prev, s =>
    match reFind r prev s with
    | some (cap, rest) =>
      let consumed := s.length - rest.length
      if consumed = 0 then
        match s with
        | [] => []
        | c :: s2 => reScan r f (some c) s2
      else
        (match cap with
          | some c => c
          | none => s.take consumed) :: reScan r f (prevAfter prev s consumed) rest
    | none =>
      match s with
      | [] => []
      | c :: s2 => reScan r f (some c) s2

/-- All captures of `r` in `text`, in order of discovery. -/
def reFindAll (r : Re) (text : List Char) : List (List Char) :=
  reScan r (text.length + 1) none text

/-- Literal pattern from a string. -/
def rlit (s : String) : Re := Re.lit s.data

/-- Case-insensitive literal pattern from a string. -/
def rlitCI (s : String) : Re := Re.litCI s.data

/-! ### Character classes and patterns from `office_tracker.py` -/

/-- Regex class `[A-Z]`. -/
def isUpperEn (c : Char) : Bool := 65 ≤ c.toNat && c.toNat ≤ 90

/-- Regex class `[a-z]`. -/
def isLowerEn (c : Char) : Bool := 97 ≤ c.toNat && c.toNat ≤ 122

/-- Regex class `\d`. -/
def isDigitCh (c : Char) : Bool := 48 ≤ c.toNat && c.toNat ≤ 57

/-- Regex class `[Α-ΩΆΈΉΊΌΎΏΪΫ]` (the `Α-Ω` range is by code point,
exactly as the regex engine treats it). -/
def isGreekUpperCls (c : Char) : Bool :=
  (0x391 ≤ c.toNat && c.toNat ≤ 0x3A9) || "ΆΈΉΊΌΎΏΪΫ".data.contains c

/-- Regex class `[α-ωάέήίόύώϊϋ]`. -/
def isGreekLowerCls (c : Char) : Bool :=
  (0x3B1 ≤ c.toNat && c.toNat ≤ 0x3C9) || "άέήίόύώϊϋ".data.contains c

/-- Regex class `[\w\s&\-\']` (verb-anchored company pattern body). -/
def bodyEnCls (c : Char) : Bool :=
  isWordChar c || isSpaceCh c || c == '&' || c == '-' || c == apostropheChar

/-- Regex class `[\w\s&\-\'Ͱ-Ͽἀ-῿]` (suffix-anchored pattern body). -/
def bodyExtCls (c : Char) : Bool := bodyEnCls c || isGreekBlock c

/-- Regex class `[A-Za-zͰ-Ͽἀ-῿]` (suffix-anchored pattern start). -/
def startExtCls (c : Char) : Bool := isUpperEn c || isLowerEn c || isGreekBlock c

/-- Regex class `[a-zA-Z\'\-\&\s]` (English title-fallback body). -/
def fbBodyEn (c : Char) : Bool :=
  isLowerEn c || isUpperEn c || c == apostropheChar || c == '-' || c == '&' || isSpaceCh c

/-- Regex class `[α-ωάέήίόύώϊϋΑ-ΩΆΈΉΊΌΎΏΪΫ\'\-\&\s]` (Greek title-fallback body). -/
def fbBodyEl (c : Char) : Bool :=
  isGreekLowerCls c || isGreekUpperCls c || c == apostropheChar || c == '-' || c == '&' || isSpaceCh c

/-- Regex class `[^"]`. -/
def notQuoteCls (c : Char) : Bool := c != quoteChar

/-- Regex class `[\d,.]` (tail of the size number). -/
def sizeNumTail (c : Char) : Bool := isDigitCh c || c == ',' || c == '.'

/-- Regex class `[\s,\.]` (punctuation after a quoted company name). -/
def likePunct (c : Char) : Bool := isSpaceCh c || c == ',' || c == '.'

/-- Pattern `\s+`. -/
def sp1 : Re := Re.cls isSpaceCh 1 none false

/-- Pattern `\s*`. -/
def spStar : Re := Re.cls isSpaceCh 0 none false

/-- Pattern `\s` (exactly one whitespace character). -/
def spOne : Re := Re.cls isSpaceCh 1 (some 1) false

/-- Source line 429: `([A-Za-zͰ-Ͽἀ-῿][\w\s&\-\'Ͱ-Ͽἀ-῿]{2,50}?\s)IDENT\b`
for a corporate-suffix token `IDENT`. -/
def identPattern (ident : String) : Re :=
  Re.seqAll [Re.grp (Re.seqAll [Re.cls startExtCls 1 (some 1) false,
      Re.cls bodyExtCls 2 (some 50) true, spOne]),
    rlit ident, Re.wb]

/-- Source line 443: `([A-Z][\w\s&\-\']{2,50}?)\sVERB\b`. -/
def verbPatternEn (verb : String) : Re :=
  Re.seqAll [Re.grp (Re.seqAll [Re.cls isUpperEn 1 (some 1) false,
      Re.cls bodyEnCls 2 (some 50) true]),
    spOne, rlit verb, Re.wb]

/-- Source line 456: `([Α-ΩΆΈΉΊΌΎΏΪΫ][\w\s&\-\'Ͱ-Ͽἀ-῿]{2,50}?)\sVERB\b`. -/
def verbPatternEl (verb : String) : Re :=
  Re.seqAll [Re.grp (Re.seqAll [Re.cls isGreekUpperCls 1 (some 1) false,
      Re.cls bodyExtCls 2 (some 50) true]),
    spOne, rlit verb, Re.wb]

/-- Source line 466 (IGNORECASE):
`"([^"]{3,60}?)"[\s,\.]+(a|an|the)\s+(?:leading|global|company|firm|developer|investor)`.
The second group is capturing in the source but never read (only
`group(1)` is used), so it is modelled as a plain alternation. -/
def quotePatternEn : Re :=
  Re.seqAll [Re.lit [quoteChar], Re.grp (Re.cls notQuoteCls 3 (some 60) true),
    Re.lit [quoteChar], Re.cls likePunct 1 none false,
    Re.alt [rlitCI "a", rlitCI "an", rlitCI "the"], sp1,
    Re.alt [rlitCI "leading", rlitCI "global", rlitCI "company", rlitCI "firm",
      rlitCI "developer", rlitCI "investor"]]

/-- Source line 473 (IGNORECASE):
`"([^"]{3,60}?)"[\s,\.]+(η|ο|το)\s+(?:εταιρεία|εταιρία|όμιλος|επενδυτής|κατασκευαστική)`. -/
def quotePatternEl : Re :=
  Re.seqAll [Re.lit [quoteChar], Re.grp (Re.cls notQuoteCls 3 (some 60) true),
    Re.lit [quoteChar], Re.cls likePunct 1 none false,
    Re.alt [rlitCI "η", rlitCI "ο", rlitCI "το"], sp1,
    Re.alt [rlitCI "εταιρεία", rlitCI "εταιρία", rlitCI "όμιλος", rlitCI "επενδυτής",
      rlitCI "κατασκευαστική"]]

/-- Capture `[A-Z][a-z]+(?:\s+[A-Z][a-z]+)?` used by all English location
patterns. -/
def capNameEn : Re :=
  Re.seqAll [Re.cls isUpperEn 1 (some 1) false, Re.cls isLowerEn 1 none false,
    Re.opt (Re.seqAll [sp1, Re.cls isUpperEn 1 (some 1) false,
      Re.cls isLowerEn 1 none false])]

/-- Capture `[Α-ΩΆΈΉΊΌΎΏΪΫ][α-ωάέήίόύώϊϋ]+(?:\s+[Α-ΩΆΈΉΊΌΎΏΪΫ][α-ωάέήίόύώϊϋ]+)?`
used by all Greek location patterns. -/
def capNameEl : Re :=
  Re.seqAll [Re.cls isGreekUpperCls 1 (some 1) false, Re.cls isGreekLowerCls 1 none false,
    Re.opt (Re.seqAll [sp1, Re.cls isGreekUpperCls 1 (some 1) false,
      Re.cls isGreekLowerCls 1 none false])]

/-- Source lines 495-500, the four English location patterns. -/
def locPatternsEn : List Re :=
  [Re.seqAll [Re.alt [rlit "in", rlit "at", rlit "near", rlit "to", rlit "from"],
      sp1, Re.grp capNameEn, Re.opt (rlit ","), sp1,
      Re.alt [rlit "Greece", rlit "Hellas"]],
   Re.seqAll [Re.alt [rlit "relocating", rlit "moved", rlit "moving"], sp1,
      Re.alt [rlit "to", rlit "into", rlit "in"], sp1, Re.grp capNameEn],
   Re.seqAll [Re.grp capNameEn, sp1,
      Re.alt [rlit "district", rlit "area", rlit "suburb", rlit "region",
        Re.seqAll [rlit "business", sp1, rlit "center"]]],
   Re.seqAll [rlit "new", sp1,
      Re.alt [rlit "office", rlit "headquarters", rlit "building"], sp1,
      Re.alt [rlit "in", rlit "at"], sp1, Re.grp capNameEn]]

/-- Source lines 511-515, the three Greek location patterns. -/
def locPatternsEl : List Re :=
  [Re.seqAll [Re.alt [Re.seqAll [rlit "στ", Re.alt [rlit "ην", rlit "ον", rlit "ο", rlit "α"]],
        Re.seqAll [rlit "κοντά", sp1, rlit "στ", Re.alt [rlit "ην", rlit "ον", rlit "ο", rlit "α"]]],
      sp1, Re.grp capNameEl],
   Re.seqAll [Re.alt [rlit "μετεγκατάσταση", rlit "μετακόμιση"], sp1,
      rlit "στ", Re.alt [rlit "ην", rlit "ον", rlit "ο", rlit "α"], sp1, Re.grp capNameEl],
   Re.seqAll [Re.grp capNameEl, sp1,
      Re.alt [rlit "περιοχή", rlit "συνοικία", rlit "προάστιο"]]]

/-- Source line 734:
`\b(\d[\d,.]*)\s*(?:sq\.?m|square meters|m²|sqm|τ\.?μ\.?|τετραγωνικά μέτρα|τετραγωνικών μέτρων)\b`. -/
def sizePattern : Re :=
  Re.seqAll [Re.wb,
    Re.grp (Re.seqAll [Re.cls isDigitCh 1 (some 1) false, Re.cls sizeNumTail 0 none false]),
    spStar,
    Re.alt [Re.seqAll [rlit "sq", Re.opt (rlit "."), rlit "m"],
      rlit "square meters", rlit "m²", rlit "sqm",
      Re.seqAll [rlit "τ", Re.opt (rlit "."), rlit "μ", Re.opt (rlit ".")],
      rlit "τετραγωνικά μέτρα", rlit "τετραγωνικών μέτρων"],
    Re.wb]

/-- Source line 660: title-fallback pattern `([A-Z][a-zA-Z\'\-\&\s]{2,30})`. -/
def fallbackPatternEn : Re :=
  Re.grp (Re.seqAll [Re.cls isUpperEn 1 (some 1) false, Re.cls fbBodyEn 2 (some 30) false])

/-- Source line 662: Greek title-fallback pattern
`([Α-ΩΆΈΉΊΌΎΏΪΫ][α-ωάέήίόύώϊϋΑ-ΩΆΈΉΊΌΎΏΪΫ\'\-\&\s]{2,30})`. -/
def fallbackPatternEl : Re :=
  Re.grp (Re.seqAll [Re.cls isGreekUpperCls 1 (some 1) false, Re.cls fbBodyEl 2 (some 30) false])

/-! ### Fixed word lists from the source -/

/-- Source lines 34-37. -/
def EXAMPLE_COMPANIES : List String :=
  ["PwC", "KPMG", "Deloitte", "EY", "Lamda Development",
   "Dimand", "Prodea", "Noval Property"]

/-- Source lines 41-45 (`COMPANY_IDENTIFIERS["en"]`). -/
def COMPANY_IDENTIFIERS_en : List String :=
  ["Inc", "LLC", "Ltd", "Limited", "Corp", "Corporation", "Co", "Company",
   "Group", "Holdings", "Enterprises", "Ventures", "Capital", "Partners",
   "Properties", "Real Estate", "Development", "Investments"]

/-- Source lines 46-51 (`COMPANY_IDENTIFIERS["el"]`). -/
def COMPANY_IDENTIFIERS_el : List String :=
  ["ΑΕ", "Α.Ε.", "Α.Ε", "ΕΠΕ", "Ε.Π.Ε.", "Ε.Π.Ε", "ΟΕ", "Ο.Ε.", "ΙΚΕ", "Ι.Κ.Ε.",
   "ΑΕΒΕ", "Α.Ε.Β.Ε.", "ΑΒΕΕ", "Α.Β.Ε.Ε.", "ΑΞΤΕ", "Α.Ξ.Τ.Ε.",
   "Όμιλος", "Εταιρεία", "Εταιρεια", "Ανάπτυξη", "Αναπτυξη", "Ακίνητα", "Ακινητα",
   "Επενδύσεις", "Επενδυσεις", "Κατασκευαστική", "Κατασκευαστικη"]

/-- Source lines 55-65. -/
def OFFICE_KEYWORDS : List String :=
  ["office", "headquarters", "hq", "building", "real estate", "property",
   "workspace", "commercial", "lease", "square meters", "sqm", "m²",
   "development", "project", "acquisition", "purchase", "move", "relocation",
   "γραφεία", "γραφείο", "έδρα", "κτίριο", "ακίνητο", "ακίνητα",
   "επαγγελματικό", "επαγγελματική στέγη", "εμπορικό", "μίσθωση",
   "τετραγωνικά μέτρα", "τ.μ.", "τ.μ", "τμ", "μ²",
   "ανάπτυξη", "έργο", "εξαγορά", "αγορά", "μετακόμιση", "μετεγκατάσταση"]

/-- Source lines 439-440 (English business-action verbs). -/
def company_verbs_en : List String :=
  ["announced", "reported", "unveiled", "launched", "introduced",
   "acquired", "purchased", "bought", "leased", "moved", "relocated"]

/-- Source line 453 (Greek business-action verbs). -/
def company_verbs_el : List String :=
  ["ανακοίνωσε", "παρουσίασε", "απέκτησε", "αγόρασε", "μίσθωσε", "μετεγκαταστάθηκε"]

/-- Source lines 525-530 (known Greek cities/areas, bilingual spellings). -/
def common_locations : List String :=
  ["Athens", "Thessaloniki", "Patras", "Heraklion", "Piraeus", "Larissa", "Glyfada",
   "Marousi", "Chalandri", "Kifissia", "Kallithea", "Palaio Faliro", "Voula",
   "Αθήνα", "Θεσσαλονίκη", "Πάτρα", "Ηράκλειο", "Πειραιάς", "Λάρισα", "Γλυφάδα",
   "Μαρούσι", "Χαλάνδρι", "Κηφισιά", "Καλλιθέα", "Παλαιό Φάληρο", "Βούλα"]

/-- Source lines 614-617: the minimal English stop-word set used when the
NLTK corpus is unavailable. -/
def fallback_stop_words_en : List String :=
  ["a", "an", "the", "and", "or", "but", "if", "then", "else", "when",
   "at", "by", "for", "with", "about", "against", "between", "into",
   "through", "during", "before", "after", "above", "below", "to", "from",
   "up", "down", "in", "out", "on", "off", "over", "under", "of", "is", "are"]

/-- Source lines 620-624: the Greek stop words always added. -/
def greek_stop_words : List String :=
  ["ο", "η", "το", "οι", "τα", "του", "της", "των", "τον", "την", "και",
   "κι", "κ", "με", "σε", "από", "για", "προς", "παρά", "αντί", "μέχρι",
   "ως", "πως", "ότι", "είναι", "ήταν", "θα", "να", "δεν", "μη", "μην"]

/-- The stop-word set as built on line 625 when the NLTK download fails
(`evaluate_relevance` takes the English part as a parameter in this
embedding, since a successful NLTK download substitutes a larger corpus;
this constant is the fallback instantiation used in concrete runs). -/
def fallbackStopWords : List String := fallback_stop_words_en ++ greek_stop_words

/-! ### Entity extraction (`extract_company_names`, source lines 413-486) -/

/-- First pass (suffix-anchored): `match.group(1).strip() + identifier`,
kept when `3 < len < 60`, appended after a second `strip()`. -/
def appendSuffixMatch (ident : String) (acc : List String) (cap : List Char) : List String :=
  let name := String.mk (pyStrip cap) ++ ident
  if 3 < name.length ∧ name.length < 60 then acc ++ [String.mk (pyStrip name.data)] else acc

/-- The suffix-anchored pass over all identifiers of the language. -/
def suffixPass (text : List Char) (identifiers : List String) : List String :=
  identifiers.foldl (fun acc ident =>
    (reFindAll (identPattern ident) text).foldl (appendSuffixMatch ident) acc) []

/-- Verb-anchored pass: `match.group(1).strip()`, kept when `3 < len < 60`
and not already collected. -/
def verbPass (companies : List String) (text : List Char) (pat : String → Re)
    (verbs : List String) : List String :=
  verbs.foldl (fun acc verb =>
    (reFindAll (pat verb) text).foldl (fun a cap =>
      let name := String.mk (pyStrip cap)
      if 3 < name.length ∧ name.length < 60 ∧ ¬ a.contains name then a ++ [name] else a)
      acc) companies

/-- Quotation-anchored pass: `match.group(1).strip()`, kept when not
already collected (the source applies no length bound in this pass beyond
the `{3,60}` of the regex). -/
def quotePass (companies : List String) (text : List Char) (pat : Re) : List String :=
  (reFindAll pat text).foldl (fun a cap =>
    let name := String.mk (pyStrip cap)
    if ¬ a.contains name then a ++ [name] else a) companies

/-- Watch-list pass: every `EXAMPLE_COMPANIES` member occurring verbatim in
the text is appended if not already collected. -/
def watchPass (companies : List String) (text : List Char) : List String :=
  EXAMPLE_COMPANIES.foldl (fun a comp =>
    if containsSub comp.data text ∧ ¬ a.contains comp then a ++ [comp] else a) companies

/-- Model of Python `list(set(xs))`.  A Python `set` enumerates in an
unspecified (hash) order; the claims only use membership, which this
first-occurrence model preserves. -/
def dedupKeepFirst (l : List String) : List String :=
  l.foldl (fun acc x => if acc.contains x then acc else acc ++ [x]) []

/-- Source `extract_company_names(text, language)`.  The dictionary lookup
`COMPANY_IDENTIFIERS.get(language, COMPANY_IDENTIFIERS["en"])` makes every
language other than `"el"` use the English identifier list. -/
def extract_company_names (text : String) (language : String) : List String :=
  if text = "" then []
  else
    let identifiers := if language = "el" then COMPANY_IDENTIFIERS_el else COMPANY_IDENTIFIERS_en
    let companies := suffixPass text.data identifiers
    let companies := if language = "en" then
        verbPass companies text.data verbPatternEn company_verbs_en else companies
    let companies := if language = "el" then
        verbPass companies text.data verbPatternEl company_verbs_el else companies
    let companies := if language = "en" then quotePass companies text.data quotePatternEn
      else companies
    let companies := if language = "el" then quotePass companies text.data quotePatternEl
      else companies
    let companies := watchPass companies text.data
    dedupKeepFirst (companies.filter (fun c => 3 < c.length))

/-! ### Location extraction (`extract_locations`, source lines 489-536) -/

/-- Pattern-based pass: `match.group(1).strip()`, kept when non-empty, of
length greater than 2, and not already collected. -/
def locPatternPass (locs : List String) (text : List Char) (pats : List Re) : List String :=
  pats.foldl (fun acc pat =>
    (reFindAll pat text).foldl (fun a cap =>
      let location := String.mk (pyStrip cap)
      if location ≠ "" ∧ 2 < location.length ∧ ¬ a.contains location then a ++ [location]
      else a) acc) locs

/-- Source `extract_locations(text, language)`. -/
def extract_locations (text : String) (language : String) : List String :=
  let locations : List String := []
  let locations := if language = "en" then locPatternPass locations text.data locPatternsEn
    else locations
  let locations := if language = "el" then locPatternPass locations text.data locPatternsEl
    else locations
  common_locations.foldl (fun a loc =>
    if containsSub loc.data text.data ∧ ¬ a.contains loc then a ++ [loc] else a) locations

/-! ### Project type (`extract_project_type`, source lines 539-583) -/

/-- Python `any(term in content_lower for term in terms)`. -/
def anyTermIn (content : List Char) (terms : List String) : Bool :=
  terms.any (fun t => containsSub t.data content)

/-- Source `extract_project_type(content, language)`: a fixed ordered
decision list per language, defaulting to `"Office Project"`. -/
def extract_project_type (content : String) (language : String) : String :=
  let cl := content.data.map pyLowerChar
  if language = "en" ∧ anyTermIn cl ["new office", "new building", "new headquarters", "new hq"]
    then "New Office"
  else if language = "en" ∧ anyTermIn cl ["relocation", "relocating", "moving to", "moved to"]
    then "Relocation"
  else if language = "en" ∧ anyTermIn cl ["expansion", "expanding", "additional space", "growing"]
    then "Expansion"
  else if language = "en" ∧ anyTermIn cl ["renovation", "refurbishment", "remodeling", "upgrading"]
    then "Renovation"
  else if language = "en" ∧ anyTermIn cl ["lease", "leasing", "leased", "rental", "renting"]
    then "Leasing"
  else if language = "en" ∧ anyTermIn cl ["purchase", "acquisition", "acquired", "bought", "buying"]
    then "Acquisition"
  else if language = "el" ∧ anyTermIn cl ["νέο γραφείο", "νέα γραφεία", "νέο κτίριο", "νέα έδρα"]
    then "New Office"
  else if language = "el" ∧ anyTermIn cl ["μετεγκατάσταση", "μετακόμιση", "μεταφορά γραφείων"]
    then "Relocation"
  else if language = "el" ∧ anyTermIn cl ["επέκταση", "επέκταση γραφείων", "επιπλέον χώρος"]
    then "Expansion"
  else if language = "el" ∧ anyTermIn cl ["ανακαίνιση", "ανακαίνιση γραφείων", "αναβάθμιση"]
    then "Renovation"
  else if language = "el" ∧ anyTermIn cl ["μίσθωση", "ενοικίαση", "μισθώνει", "ενοικιάζει"]
    then "Leasing"
  else if language = "el" ∧ anyTermIn cl ["αγορά", "εξαγορά", "απόκτηση", "αγοράζει"]
    then "Acquisition"
  else "Office Project"

/-! ### Size and date extraction (source lines 734-752) -/

/-- First size match formatted as in the source: `f"{m} sq.m"`. -/
def extract_size (content : String) : Option String :=
  match reFindAll sizePattern content.data with
  | [] => none
  | cap :: _ => some (String.mk cap ++ " sq.m")

/-- Exactly `n` leading digits, returning them with the rest. -/
def takeDigits : Nat → List Char → Option (List Char × List Char)
  | 0, s => some ([], s)
  | Nat.succ _, [] => none
  | Nat.succ n, c :: rest =>
    if isDigitCh c then
      match takeDigits n rest with
      | some (ds, s2) => some (c :: ds, s2)
      | none => none
    else none

/-- Regex class `[\/\-\.]` of the date pattern. -/
def isDateSep (c : Char) : Bool := c == '/' || c == '-' || c == '.'

/-- Try the date pattern `(\d{1,2})[\/\-\.](\d{1,2})[\/\-\.](\d{2,4})\b` at
the current position for a specific choice of the three digit counts. -/
def dateTryCounts (d m y : Nat) (s : List Char) : Option (List Char × List Char × List Char) :=
  match takeDigits d s with
  | none => none
  | some (ds, s1) =>
    match s1 with
    | [] => none
    | c1 :: s2 =>
      if isDateSep c1 then
        match takeDigits m s2 with
        | none => none
        | some (ms, s3) =>
          match s3 with
          | [] => none
          | c2 :: s4 =>
            if isDateSep c2 then
              match takeDigits y s4 with
              | none => none
              | some (ys, s5) =>
                match s5 with
                | [] => some (ds, ms, ys)
                | c3 :: _ => if isWordChar c3 then none else some (ds, ms, ys)
            else none
      else none

/-- Match of the date pattern at the current position: greedy order of the
bounded digit repetitions (2 before 1 for day/month, 4 before 3 before 2
for the year), with the leading `\b` checked against the previous char. -/
def dateMatchAt (prev : Option Char) (s : List Char) :
    Option (List Char × List Char × List Char) :=
  let boundary := match prev with
    | some c => !(isWordChar c)
    | none => true
  if boundary then
    (List.foldl (fun res (dm : Nat × Nat × Nat) =>
      match res with
      | some r => some r
      | none => dateTryCounts dm.1 dm.2.1 dm.2.2 s) none
      [(2,2,4), (2,2,3), (2,2,2), (2,1,4), (2,1,3), (2,1,2),
       (1,2,4), (1,2,3), (1,2,2), (1,1,4), (1,1,3), (1,1,2)])
  else none

/-- Left-to-right scan for the first date match (`re.findall(...)[0]`). -/
def dateScan : Nat → Option Char → List Char → Option (List Char × List Char × List Char)
  | 0, _, _ => none
  | Nat.succ f, prev, s =>
    match dateMatchAt prev s with
    | some r => some r
    | none =>
      match s with
      | [] => none
      | c :: s2 => dateScan f (some c) s2

/-- Python `str.zfill(2)` on a 1-2 digit string. -/
def zfill2 (s : List Char) : List Char := if s.length < 2 then '0' :: s else s

/-- Source lines 742-752: first day/month/year match normalised to
`YYYY-MM-DD`, with two-digit years prefixed by `"20"`. -/
def extract_date (content : String) : Option String :=
  match dateScan (content.length + 1) none content.data with
  | none => none
  | some (d, m, y) =>
    let y2 := if y.length = 2 then '2' :: '0' :: y else y
    some (String.mk (y2 ++ '-' :: (zfill2 m ++ '-' :: zfill2 d)))

/-! ### Result records and relevance scoring (source lines 587-767)

`evaluate_relevance` never aborts on NLTK failures: the tokenizer below is
the source's `simple_tokenize` and the stop-word set is passed in (the
NLTK English corpus when available, `fallbackStopWords` otherwise).
Publication-date recovery from page metadata, logging, and the progress
bars are I/O with no effect on any claim and are not modelled. -/

/-- A search-result record as assembled by `search_web` (source lines
281-291): the dictionary keys become fields. -/
structure RawResult where
  title : String
  link : String
  snippet : String
  query : String
  query_language : String
  full_content : String
  content_hash : String
deriving DecidableEq

/-- Source line 639: `f"{title} {snippet} {full_content}"`. -/
def contentToCheck (r : RawResult) : String :=
  r.title ++ " " ++ r.snippet ++ " " ++ r.full_content

/-- Source line 643: language of the first 1000 characters of the combined
content (ultimately `detect_language` samples 100 of them). -/
def evalLang (r : RawResult) : String :=
  detect_language (String.mk ((contentToCheck r).data.take 1000))

/-- Source lines 655-668: when pattern extraction found nothing, harvest
capitalised phrases from the title, keeping matches with `3 < len < 40`
not already collected. -/
def fbAppend (a : List String) (cap : List Char) : List String :=
  let company := String.mk cap
  if 3 < company.length ∧ company.length < 40 ∧ ¬ a.contains company then a ++ [company]
  else a

/-- The harvested fallback candidates (lines 665-668). -/
def fallbackCompanies (lang : String) (title : String) : List String :=
  let pat := if lang = "en" then fallbackPatternEn else fallbackPatternEl
  (reFindAll pat title.data).foldl fbAppend []

/-- Company candidates of a result: pattern extraction, falling back to
title harvesting when it is empty. -/
def evalCompanies (r : RawResult) : List String :=
  let base := extract_company_names (contentToCheck r) (evalLang r)
  if base.isEmpty then fallbackCompanies (evalLang r) r.title else base

/-- Raw location candidates (before the `["Greece"]` default of line 707). -/
def evalLocationsRaw (r : RawResult) : List String :=
  extract_locations (contentToCheck r) (evalLang r)

/-- Source lines 714-719: one point bundle of 5 per present keyword while
the running count is at most 5. -/
def keywordPoints (contentLower : List Char) : Nat :=
  (OFFICE_KEYWORDS.foldl (fun (p : Nat × Nat) kw =>
    if containsSub (kw.data.map pyLowerChar) contentLower then
      (p.1 + 1, if p.1 + 1 ≤ 5 then p.2 + 5 else p.2)
    else p) (0, 0)).2

/-- Source lines 601-607 (`simple_tokenize`): replace punctuation by
spaces, split on whitespace. -/
def punctChars : List Char :=
  ['.', ',', ';', ':', '!', '?', '(', ')', '[', ']',
   Char.ofNat 123, Char.ofNat 125, quoteChar, apostropheChar]

/-- The source's `simple_tokenize`. -/
def simple_tokenize (text : List Char) : List (List Char) :=
  splitWs (text.map (fun c => if punctChars.contains c then ' ' else c))

/-- Source lines 721-731: count of stop-word-filtered tokens containing
some office keyword, capped at 20. -/
def officeTermCount (sw : List String) (contentLower : List Char) : Nat :=
  ((simple_tokenize contentLower).filter (fun t => ¬ sw.contains (String.mk t))
    |>.filter (fun t =>
      OFFICE_KEYWORDS.any (fun kw => containsSub (kw.data.map pyLowerChar) t))).length

/-- The additive relevance score of a result (source lines 636-739).  The
summands are, in source order: +25 for a non-empty company set (after the
title fallback), +15 for a non-empty raw location set, the capped keyword
points, +5 when the content is Greek and the originating query was tagged
Greek (line 726, `'el' in query_language`), the capped office-term count,
and +10 when a size pattern matched.  Addition is commutative, so the
grouping is immaterial. -/
def evalScore (sw : List String) (r : RawResult) : Nat :=
  let content := contentToCheck r
  let contentLower := content.data.map pyLowerChar
  (if (evalCompanies r).isEmpty then 0 else 25)
    + (if (evalLocationsRaw r).isEmpty then 0 else 15)
    + keywordPoints contentLower
    + (if evalLang r = "el" ∧ containsSub "el".data r.query_language.data then 5 else 0)
    + Nat.min (officeTermCount sw contentLower) 20
    + (if (extract_size content).isSome then 10 else 0)

/-- The fields `evaluate_relevance` attaches to a result. -/
structure ScoredResult where
  result : RawResult
  language : String
  companies : List String
  locationsRaw : List String
  locations : List String
  project_type : String
  estimated_size : Option String
  date_reported : Option String
  score : Nat
deriving DecidableEq

/-- Source line 757: primary company, `companies[0]` or `"Unknown"`. -/
def ScoredResult.extracted_company (s : ScoredResult) : String := s.companies.headD "Unknown"

/-- Source line 758: primary location, `locations[0]` or `"Greece"`. -/
def ScoredResult.extracted_location (s : ScoredResult) : String := s.locations.headD "Greece"

/-- Scoring and extraction of a single result (the loop body of
`evaluate_relevance`, lines 634-752). -/
def evalOne (sw : List String) (r : RawResult) : ScoredResult :=
  let locs0 := evalLocationsRaw r
  { result := r
    language := evalLang r
    companies := evalCompanies r
    locationsRaw := locs0
    locations := if locs0.isEmpty then ["Greece"] else locs0
    project_type := extract_project_type (contentToCheck r) (evalLang r)
    estimated_size := extract_size (contentToCheck r)
    date_reported := extract_date (contentToCheck r)
    score := evalScore sw r }

/-! ### Mention store (`companies` / `locations` tables, lines 107-125, 676-704) -/

/-- A row of the `companies` or `locations` table (the derived
`relevance_score` column of `companies` is only written by the weekly
maintenance task and read by no claim, so it is omitted). -/
structure MentionRec where
  name : String
  mention_count : Nat
  last_seen_date : String
deriving DecidableEq

/-- Source lines 678-684:
`INSERT INTO companies (name, last_seen_date) VALUES (?, ?)
 ON CONFLICT(name) DO UPDATE SET mention_count = mention_count + 1,
 last_seen_date = ?`.
The `name` column is UNIQUE, so the conflict clause updates the single
matching row; an insert takes the column default `mention_count = 1`. -/
def upsertMention (today : String) : List MentionRec → String → List MentionRec
  | [], name => [{ name := name, mention_count := 1, last_seen_date := today }]
  | rec :: rest, name =>
    if rec.name = name then
      { rec with mention_count := rec.mention_count + 1, last_seen_date := today } :: rest
    else rec :: upsertMention today rest name

/-- Upsert every name of a list, in order. -/
def upsertAll (today : String) (db : List MentionRec) (names : List String) : List MentionRec :=
  names.foldl (upsertMention today) db

/-- Mention count recorded for a name (0 when absent). -/
def mentionCount (db : List MentionRec) (name : String) : Nat :=
  match db.find? (fun rec => rec.name = name) with
  | some rec => rec.mention_count
  | none => 0

/-- Last-seen date recorded for a name. -/
def lastSeenDate (db : List MentionRec) (name : String) : Option String :=
  match db.find? (fun rec => rec.name = name) with
  | some rec => some rec.last_seen_date
  | none => none

/-- One iteration of the `evaluate_relevance` loop: the result is appended
to the relevant list exactly when its score reaches 30 (line 755), and the
company/location mention upserts of lines 676-704 happen in every
iteration, before that test. -/
def evalStep (sw : List String) (today : String)
    (acc : List ScoredResult × List MentionRec × List MentionRec) (r : RawResult) :
    List ScoredResult × List MentionRec × List MentionRec :=
  let s := evalOne sw r
  (if 30 ≤ s.score then acc.1 ++ [s] else acc.1,
   upsertAll today acc.2.1 s.companies,
   upsertAll today acc.2.2 s.locationsRaw)

/-- Stable descending insertion: a new element goes after all elements of
at least its score, matching Python's stable `sort(reverse=True)`. -/
def insertByScoreDesc (x : ScoredResult) : List ScoredResult → List ScoredResult
  | [] => [x]
  | y :: ys => if y.score < x.score then x :: y :: ys else y :: insertByScoreDesc x ys

/-- Source line 765: sort the relevant results by score, descending. -/
def sortByScoreDesc (l : List ScoredResult) : List ScoredResult :=
  l.foldl (fun acc x => insertByScoreDesc x acc) []

/-- Source `evaluate_relevance(results)`: threads the company and location
stores through the loop and returns the sorted relevant results together
with the updated stores. -/
def evaluate_relevance (sw : List String) (today : String) (results : List RawResult)
    (companiesDB locationsDB : List MentionRec) :
    List ScoredResult × List MentionRec × List MentionRec :=
  let a := results.foldl (evalStep sw today) ([], companiesDB, locationsDB)
  (sortByScoreDesc a.1, a.2.1, a.2.2)

/-! ### Content hash and the search loop (source lines 280-295, 377) -/

/-- The string fed to MD5 on line 290: `f"{title}|{snippet}"`. -/
def contentHashInput (title snippet : String) : String := title ++ "|" ++ snippet

/-- Source line 290: `hashlib.md5(...).hexdigest()`.  The digest itself is
an external library function, passed as a parameter; every theorem about
hashes holds for an arbitrary digest unless stated otherwise. -/
def content_hash (digest : String → String) (title snippet : String) : String :=
  digest (contentHashInput title snippet)

/-- A search-provider item `{title, link, snippet}` plus the query that
produced it and the outcome of the page fetch (`none` models a failed
fetch, in which case line 375 falls back to the snippet). -/
structure SearchItem where
  title : String
  link : String
  snippet : String
  query : String
  query_language : String
  page : Option String
deriving DecidableEq

/-- The result record built for one item (lines 281-291 plus the
fetch/fallback of lines 297-375). -/
def mkRawResult (digest : String → String) (it : SearchItem) : RawResult :=
  { title := it.title
    link := it.link
    snippet := it.snippet
    query := it.query
    query_language := it.query_language
    full_content := it.page.getD it.snippet
    content_hash := content_hash digest it.title it.snippet }

/-- One iteration of the result loop of `search_web`: the content hash is
computed first and the item is skipped when its hash already occurred
(lines 293-295), otherwise the record is appended (line 377). -/
def collectStep (digest : String → String) (acc : List RawResult) (it : SearchItem) :
    List RawResult :=
  let r := mkRawResult digest it
  if acc.any (fun prev => prev.content_hash = r.content_hash) then acc
  else acc ++ [r]

/-- The accumulation loop of `search_web` over all result items of the
run. -/
def search_collect (digest : String → String) (items : List SearchItem) : List RawResult :=
  items.foldl (collectStep digest) []

/-! ### Project persistence (`save_to_database`, source lines 770-857) -/

/-- A row of the `projects` table (lines 88-104).  The `is_sent` column
has SQL default 0, i.e. `false`. -/
structure ProjectRow where
  company_name : String
  location : String
  description : String
  source_url : String
  source_title : String
  relevance_score : Nat
  project_type : String
  estimated_size : String
  date_reported : String
  date_added : String
  content_hash : String
  is_sent : Bool
deriving DecidableEq

/-- Line 782: `SELECT id FROM projects WHERE source_url = ?`. -/
def urlStored (db : List ProjectRow) (p : ScoredResult) : Bool :=
  db.any (fun row => row.source_url = p.result.link)

/-- Line 786: `SELECT id FROM projects WHERE content_hash = ?`. -/
def hashStored (db : List ProjectRow) (p : ScoredResult) : Bool :=
  db.any (fun row => row.content_hash = p.result.content_hash)

/-- Line 797: the first 20 words of `snippet.lower().split()` re-joined
with single spaces. -/
def simpleSnippet (snippet : String) : String :=
  String.mk (List.intercalate [' '] ((splitWs (snippet.data.map pyLowerChar)).take 20))

/-- Word count of the lower-cased snippet (line 794). -/
def snippetWordCount (snippet : String) : Nat :=
  (splitWs (snippet.data.map pyLowerChar)).length

/-- Line 799: `description LIKE '%' || pat || '%'`.  SQLite `LIKE` folds
ASCII case and treats `%`/`_` in the pattern as wildcards; the pattern here
is a lower-cased snippet prefix, so the model is ASCII-case-insensitive
substring containment (exact whenever the snippet contains no `%` or `_`,
which no natural-language snippet does). -/
def similarStored (db : List ProjectRow) (p : ScoredResult) : Bool :=
  db.any (fun row =>
    containsSub (asciiLower (simpleSnippet p.result.snippet)).data
      (asciiLower row.description).data)

/-- The row inserted on lines 808-835.  `today` stands for
`datetime.now().strftime("%Y-%m-%d")` and `stamp` for the full timestamp;
`is_sent` takes its SQL column default `false` because the INSERT lists no
`is_sent` column. -/
def mkProjectRow (today stamp : String) (p : ScoredResult) : ProjectRow :=
  { company_name := p.extracted_company
    location := p.extracted_location
    description := p.result.snippet
    source_url := p.result.link
    source_title := p.result.title
    relevance_score := p.score
    project_type := p.project_type
    estimated_size := p.estimated_size.getD "Unknown"
    date_reported := p.date_reported.getD today
    date_added := stamp
    content_hash := p.result.content_hash
    is_sent := false }

/-- The loop body of `save_to_database` (lines 780-836): skip when the URL
or the content hash is already stored; skip when a substantial snippet
(more than 10 words) is LIKE-contained in a stored description; otherwise
insert the row and count it. -/
def saveStep (today stamp : String) (acc : List ProjectRow × Nat) (p : ScoredResult) :
    List ProjectRow × Nat :=
  if urlStored acc.1 p || hashStored acc.1 p then acc
  else if decide (10 < snippetWordCount p.result.snippet) && similarStored acc.1 p then acc
  else (acc.1 ++ [mkProjectRow today stamp p], acc.2 + 1)

/-- The combined rejection condition of the gate: some rule fires. -/
def rejectsProject (db : List ProjectRow) (p : ScoredResult) : Bool :=
  urlStored db p || hashStored db p
    || (decide (10 < snippetWordCount p.result.snippet) && similarStored db p)

/-- Source `save_to_database(projects)` restricted to the `projects`
table: returns the table together with the count of newly inserted rows
(the `analytics` bookkeeping of lines 841-851 touches no claim). -/
def save_to_database (today stamp : String) (projects : List ScoredResult)
    (db : List ProjectRow) : List ProjectRow × Nat :=
  projects.foldl (saveStep today stamp) (db, 0)

/-- The deduplication gate exactly as §4.6 of the specification words it:
three rejection rules evaluated in order, first match rejects, otherwise
the project is persisted with the sent-flag false. -/
def dedupGateStep (today stamp : String) (db : List ProjectRow) (p : ScoredResult) :
    List ProjectRow :=
  if urlStored db p then db
  else if hashStored db p then db
  else if decide (10 < snippetWordCount p.result.snippet) && similarStored db p then db
  else db ++ [mkProjectRow today stamp p]

/-! ### Notification dispatch (`send_email_notification`, source lines 861-985) -/

/-- Lines 879-884: the projects bundled into the digest, `is_sent = 0`
(the ordering of the SELECT affects only the rendering order of the email,
which is not modelled). -/
def unsentProjects (db : List ProjectRow) : List ProjectRow :=
  db.filter (fun row => row.is_sent = false)

/-- Source `send_email_notification`.  The two external outcomes are
parameters: `credsOk` is the credential check of line 871 and `smtpOk` the
success of the SMTP transaction of lines 968-971.  On success every
bundled (unsent) project is marked sent (lines 974-977); on failure, and
when there is nothing to send, the table is untouched. -/
def send_email_notification (credsOk smtpOk : Bool) (db : List ProjectRow) :
    List ProjectRow × Bool :=
  if ¬ credsOk then (db, false)
  else
    let unsent := unsentProjects db
    if unsent.isEmpty then (db, false)
    else if smtpOk then
      (db.map (fun row => if row.is_sent then row else { row with is_sent := true }), true)
    else (db, false)

/-! ### Concrete inputs used by the theorems -/

/-- Scenario A of §8 of the specification. -/
def scenarioA : String := "PwC announced a new office in Athens, Greece, covering 1200 sq.m"

/-- Scenario A packaged as a search result (title carries the text). -/
def scenarioAResult : RawResult :=
  { title := scenarioA, link := "https://example.com/a", snippet := "",
    query := "office projects", query_language := "en", full_content := "",
    content_hash := "hA" }

/-- A result scoring exactly 30: the watch-list company KPMG (+25) and the
single keyword "square meters" (+5), which spans two tokens and therefore
adds no office-term point. -/
def ex30Result : RawResult :=
  { title := "KPMG square meters", link := "u30", snippet := "", query := "q",
    query_language := "en", full_content := "", content_hash := "h30" }

/-- A result scoring exactly 29: no company, no location, five keywords
(+25) of which one spans two tokens, so only four tokens carry keywords
(+4). -/
def ex29Result : RawResult :=
  { title := "office lease sqm move square meters", link := "u29", snippet := "",
    query := "q", query_language := "en", full_content := "", content_hash := "h29" }

/-- Scenario D of §8: a result whose only signal is a company (+25). -/
def c6Result : RawResult :=
  { title := "KPMG", link := "u6", snippet := "", query := "q",
    query_language := "en", full_content := "", content_hash := "h6" }

/-- A company store already holding three KPMG mentions. -/
def c6DB : List MentionRec :=
  [{ name := "KPMG", mention_count := 3, last_seen_date := "2026-01-01" }]

/-- A result whose pattern extraction is empty but whose title yields a
fallback candidate. -/
def c10Result : RawResult :=
  { title := "Alphabet Team", link := "u10", snippet := "", query := "q",
    query_language := "en", full_content := "", content_hash := "h10" }

/-- A one-row project store with an unsent project. -/
def c8DB : List ProjectRow :=
  [{ company_name := "KPMG", location := "Athens", description := "d",
     source_url := "u", source_title := "t", relevance_score := 30,
     project_type := "New Office", estimated_size := "Unknown",
     date_reported := "2026-10-01", date_added := "2026-10-01 00:00:00",
     content_hash := "h", is_sent := false }]

/-! ## Theorems -/

set_option maxHeartbeats 4000000

/-- Strings are equal exactly when their character lists are. -/
theorem string_eq_iff_data (a b : String) : a = b ↔ a.data = b.data :=
  ⟨fun h => by rw [h], String.ext⟩

/-- Splitting at a separator that occurs in neither left part is
injective. -/
theorem sepSplit_inj (sep : Char) :
    ∀ (a c b d : List Char), sep ∉ a → sep ∉ c →
      (a ++ sep :: b = c ++ sep :: d ↔ a = c ∧ b = d) := by
  intro a
  induction a with
  | nil =>
    intro c b d _ hc
    cases c with
    | nil => simp
    | cons x xs =>
      simp only [List.nil_append, List.cons_append, List.cons.injEq]
      constructor
      · rintro ⟨hsep, -⟩
        exact absurd (hsep ▸ List.mem_cons_self x xs) hc
      · rintro ⟨h, -⟩
        exact absurd h (by simp)
  | cons y ys ih =>
    intro c b d ha hc
    cases c with
    | nil =>
      simp only [List.nil_append, List.cons_append, List.cons.injEq]
      constructor
      · rintro ⟨hsep, -⟩
        exact absurd (hsep ▸ List.mem_cons_self y ys) ha
      · rintro ⟨h, -⟩
        exact absurd h (by simp)
    | cons x xs =>
      simp only [List.cons_append, List.cons.injEq]
      rw [ih xs b d (fun h => ha (List.mem_cons_of_mem y h))
        (fun h => hc (List.mem_cons_of_mem x h))]
      constructor
      · rintro ⟨h1, h2, h3⟩
        exact ⟨⟨h1, h2⟩, h3⟩
      · rintro ⟨⟨h1, h2⟩, h3⟩
        exact ⟨h1, h2, h3⟩

/-- C2, counterexample.  The claim asserts that any two items whose
`(title, snippet)` pairs differ have different hashes.  The digest input
of line 290 is `title + "|" + snippet`, so the distinct pairs
`("a|b", "c")` and `("a", "b|c")` feed the identical string `"a|b|c"` to
MD5 and therefore receive the identical hash. -/
theorem C2_content_hash_counterexample :
    contentHashInput "a|b" "c" = contentHashInput "a" "b|c"
      ∧ (("a|b", "c") : String × String) ≠ ("a", "b|c") := by
  exact ⟨rfl, by decide⟩

/-- C2 (corrected): `content_hash` is a pure function of
`(title, snippet)` — identical inputs always yield identical digest
inputs — but distinct pairs are only guaranteed distinct digest inputs
when neither title contains the separator `'|'`; pairs whose
`title + "|" + snippet` concatenations coincide share the hash. -/
theorem C2_content_hash_amended : ∀ t1 s1 t2 s2 : String,
    '|' ∉ t1.data → '|' ∉ t2.data →
    (contentHashInput t1 s1 = contentHashInput t2 s2 ↔ (t1 = t2 ∧ s1 = s2)) := by
  intro t1 s1 t2 s2 h1 h2
  unfold contentHashInput
  rw [string_eq_iff_data]
  have hd : ∀ t s : String, (t ++ "|" ++ s).data = t.data ++ '|' :: s.data := by
    intro t s
    rw [String.data_append, String.data_append, List.append_assoc]
    rfl
  rw [hd, hd, sepSplit_inj '|' t1.data t2.data s1.data s2.data h1 h2,
    ← string_eq_iff_data, ← string_eq_iff_data]

/-- Witness for the amended C2 at concrete inputs. -/
theorem C2_content_hash_amended_witness :
    ('|' ∉ "ab".data)
      ∧ (contentHashInput "ab" "c" = contentHashInput "ab" "c"
          ↔ ("ab" : String) = "ab" ∧ ("c" : String) = "c") :=
  ⟨by decide, C2_content_hash_amended "ab" "c" "ab" "c" (by decide) (by decide)⟩

/-- C3, counterexample.  The claim asserts `detect_language` always
returns one of `{"en", "el"}` and defaults to `"en"` on empty input; the
source returns `"unknown"` on empty (or non-string) input. -/
theorem C3_detect_language_counterexample :
    detect_language "" = "unknown" ∧ detect_language "" ≠ "en" := by decide

/-- C3 (corrected): `detect_language` returns one of
`{"en", "el", "unknown"}`; it returns `"unknown"` exactly on empty (in
Python, also non-string) input, and otherwise classifies the lower-cased
at-most-100-character sample as `"el"` exactly when its Greek-character
count exceeds 30% of the sample length, else `"en"`. -/
theorem C3_detect_language_amended : ∀ s : String,
    (detect_language s = "en" ∨ detect_language s = "el" ∨ detect_language s = "unknown")
    ∧ (detect_language s = "unknown" ↔ s = "")
    ∧ (s ≠ "" →
      (detect_language s = "el" ↔
        (((s.data.take 100).map pyLowerChar).filter (fun c => greek_chars.contains c)).length * 10
          > ((s.data.take 100).map pyLowerChar).length * 3)) := by
  intro s
  by_cases h : s = ""
  · subst h
    exact ⟨Or.inr (Or.inr rfl), iff_of_true rfl rfl, fun hne => absurd rfl hne⟩
  · have he : detect_language s =
        (if (((s.data.take 100).map pyLowerChar).filter
            (fun c => greek_chars.contains c)).length * 10
          > ((s.data.take 100).map pyLowerChar).length * 3 then "el" else "en") := by
      unfold detect_language
      rw [if_neg h]
    by_cases hg : (((s.data.take 100).map pyLowerChar).filter
        (fun c => greek_chars.contains c)).length * 10
        > ((s.data.take 100).map pyLowerChar).length * 3
    · rw [he, if_pos hg]
      exact ⟨Or.inr (Or.inl rfl), iff_of_false (by decide) h, fun _ => iff_of_true rfl hg⟩
    · rw [he, if_neg hg]
      exact ⟨Or.inl rfl, iff_of_false (by decide) h, fun _ => iff_of_false (by decide) hg⟩

/-- Witness for the amended C3 at a concrete Greek string. -/
theorem C3_detect_language_amended_witness :
    ("αβγδ" : String) ≠ "" ∧ detect_language "αβγδ" = "el" := by
  refine ⟨by decide, ?_⟩
  exact ((C3_detect_language_amended "αβγδ").2.2 (by decide)).mpr (by decide)

/-- The save-loop body as a single conditional on the combined rejection
test. -/
theorem saveStep_eq (today stamp : String) (db : List ProjectRow) (n : Nat)
    (p : ScoredResult) :
    saveStep today stamp (db, n) p
      = (if rejectsProject db p then (db, n)
        else (db ++ [mkProjectRow today stamp p], n + 1)) := by
  unfold saveStep rejectsProject
  by_cases h1 : (urlStored db p || hashStored db p) = true
  · simp [h1]
  · by_cases h2 : (decide (10 < snippetWordCount p.result.snippet) && similarStored db p) = true
    · simp [h1, h2]
    · simp [h1, h2]

/-- C5 (confirmed): the save loop body equals the specification's ordered
three-rule gate — reject on stored URL, else on stored content hash, else
on a substantial snippet whose first 20 words are LIKE-contained in a
stored description — and otherwise inserts exactly the new row, whose
sent-flag is false. -/
theorem C5_dedup_gate_rules : ∀ (today stamp : String) (db : List ProjectRow) (n : Nat)
    (p : ScoredResult),
    (saveStep today stamp (db, n) p).1 = dedupGateStep today stamp db p
    ∧ (mkProjectRow today stamp p).is_sent = false
    ∧ (saveStep today stamp (db, n) p = (db, n)
        ∨ saveStep today stamp (db, n) p = (db ++ [mkProjectRow today stamp p], n + 1)) := by
  intro today stamp db n p
  refine ⟨?_, rfl, ?_⟩
  · unfold saveStep dedupGateStep
    by_cases h1 : urlStored db p = true
    · simp [h1]
    · by_cases h2 : hashStored db p = true
      · simp [h1, h2]
      · by_cases h3 : (decide (10 < snippetWordCount p.result.snippet)
            && similarStored db p) = true
        · simp [h1, h2, h3]
        · simp [h1, h2, h3]
  · rw [saveStep_eq]
    by_cases h : rejectsProject db p = true
    · exact Or.inl (by rw [if_pos h])
    · exact Or.inr (by rw [if_neg h])

/-- Rejection is monotone under growing the store. -/
theorem rejects_append (db ext : List ProjectRow) (p : ScoredResult)
    (h : rejectsProject db p = true) : rejectsProject (db ++ ext) p = true := by
  unfold rejectsProject urlStored hashStored similarStored at h ⊢
  simp only [List.any_append, Bool.or_eq_true, Bool.and_eq_true] at h ⊢
  rcases h with (h | h) | ⟨hlen, hsim⟩
  · exact Or.inl (Or.inl (Or.inl h))
  · exact Or.inl (Or.inr (Or.inl h))
  · exact Or.inr ⟨hlen, Or.inl hsim⟩

/-- A freshly inserted row makes its own project rejected by the URL rule. -/
theorem rejects_inserted (today stamp : String) (db : List ProjectRow) (p : ScoredResult) :
    rejectsProject (db ++ [mkProjectRow today stamp p]) p = true := by
  unfold rejectsProject urlStored
  simp [List.any_append, mkProjectRow]

/-- The save fold only appends rows. -/
theorem saveFold_prefix (today stamp : String) :
    ∀ (ps : List ScoredResult) (db : List ProjectRow) (n : Nat),
      ∃ ext, (ps.foldl (saveStep today stamp) (db, n)).1 = db ++ ext := by
  intro ps
  induction ps with
  | nil => exact fun db n => ⟨[], by simp⟩
  | cons q ps ih =>
    intro db n
    simp only [List.foldl_cons]
    rw [saveStep_eq]
    by_cases h : rejectsProject db q = true
    · rw [if_pos h]; exact ih db n
    · rw [if_neg h]
      obtain ⟨ext, hext⟩ := ih (db ++ [mkProjectRow today stamp q]) (n + 1)
      exact ⟨[mkProjectRow today stamp q] ++ ext, by rw [hext, List.append_assoc]⟩

/-- After a save pass, every processed project is rejected against the
resulting store: either it was already rejected (and the store only grew)
or its own row was inserted (and the URL rule now fires). -/
theorem saveFold_covers (today stamp : String) :
    ∀ (ps : List ScoredResult) (db : List ProjectRow) (n : Nat),
      ∀ p ∈ ps, rejectsProject ((ps.foldl (saveStep today stamp) (db, n)).1) p = true := by
  intro ps
  induction ps with
  | nil => intro db n p hp; cases hp
  | cons q ps ih =>
    intro db n p hp
    simp only [List.foldl_cons]
    rw [saveStep_eq]
    rcases List.mem_cons.mp hp with hq | hmem
    · subst hq
      by_cases h : rejectsProject db p = true
      · rw [if_pos h]
        obtain ⟨ext, hext⟩ := saveFold_prefix today stamp ps db n
        rw [hext]
        exact rejects_append db ext p h
      · rw [if_neg h]
        obtain ⟨ext, hext⟩ :=
          saveFold_prefix today stamp ps (db ++ [mkProjectRow today stamp p]) (n + 1)
        rw [hext]
        exact rejects_append (db ++ [mkProjectRow today stamp p]) ext p
          (rejects_inserted today stamp db p)
    · by_cases h : rejectsProject db q = true
      · rw [if_pos h]; exact ih db n p hmem
      · rw [if_neg h]; exact ih (db ++ [mkProjectRow today stamp q]) (n + 1) p hmem

/-- A save pass over projects that are all already rejected changes
nothing. -/
theorem saveFold_noop (today stamp : String) :
    ∀ (ps : List ScoredResult) (db : List ProjectRow) (n : Nat),
      (∀ p ∈ ps, rejectsProject db p = true) →
      ps.foldl (saveStep today stamp) (db, n) = (db, n) := by
  intro ps
  induction ps with
  | nil => intro db n _; rfl
  | cons q ps ih =>
    intro db n hall
    simp only [List.foldl_cons]
    rw [saveStep_eq, if_pos (hall q (List.mem_cons_self q ps))]
    exact ih db n (fun p hp => hall p (List.mem_cons_of_mem q hp))

/-- C7 (confirmed): running the deduplication-and-store step a second time
on the same input set against the store produced by the first run inserts
nothing — every project of the set is rejected by the URL (or hash) rule
against the grown store — so the operation is idempotent. -/
theorem C7_dedup_idempotent : ∀ (today stamp : String) (projects : List ScoredResult)
    (db : List ProjectRow),
    save_to_database today stamp projects (save_to_database today stamp projects db).1
      = ((save_to_database today stamp projects db).1, 0) := by
  intro today stamp ps db
  unfold save_to_database
  exact saveFold_noop today stamp ps _ 0
    (fun p hp => saveFold_covers today stamp ps db 0 p hp)

/-- Dispatch on a store with nothing unsent returns it unchanged. -/
theorem send_noop_of_no_unsent (db : List ProjectRow) (h : unsentProjects db = []) :
    send_email_notification true true db = (db, false) := by
  unfold send_email_notification
  rw [h]
  rfl

/-- C8 (confirmed): notification dispatch is atomic for the sent-flag.
When the credential check or the SMTP transaction fails, the project table
is unchanged (all bundled projects stay unsent); when it succeeds, every
project of the digest — all unsent rows — ends with sent-flag true, and a
repeated dispatch finds nothing unsent and changes nothing, so the 0→1
transition happens exactly once. -/
theorem C8_notification_atomic : ∀ db : List ProjectRow,
    (send_email_notification true false db).1 = db
    ∧ (send_email_notification false true db).1 = db
    ∧ (unsentProjects db ≠ [] →
        (∀ row ∈ (send_email_notification true true db).1, row.is_sent = true)
        ∧ send_email_notification true true ((send_email_notification true true db).1)
            = ((send_email_notification true true db).1, false)) := by
  intro db
  refine ⟨?_, rfl, ?_⟩
  · unfold send_email_notification
    by_cases h : (unsentProjects db).isEmpty = true
    · simp [h]
    · simp [h]
  · intro hne
    have hempty : (unsentProjects db).isEmpty = false := by
      cases hul : unsentProjects db with
      | nil => exact absurd hul hne
      | cons a l => rfl
    have hmarked : (send_email_notification true true db).1
        = db.map (fun row => if row.is_sent then row else { row with is_sent := true }) := by
      unfold send_email_notification
      simp [hempty]
    have hall : ∀ row ∈ (send_email_notification true true db).1, row.is_sent = true := by
      intro row hrow
      rw [hmarked] at hrow
      obtain ⟨r0, _, hr0⟩ := List.mem_map.mp hrow
      by_cases hs : r0.is_sent = true
      · rw [if_pos hs] at hr0
        rw [← hr0]
        exact hs
      · rw [if_neg hs] at hr0
        rw [← hr0]
    refine ⟨hall, ?_⟩
    have hempty2 : unsentProjects ((send_email_notification true true db).1) = [] := by
      unfold unsentProjects
      rw [List.filter_eq_nil_iff]
      intro a ha
      simp [hall a ha]
    exact send_noop_of_no_unsent _ hempty2

/-- Witness for C8 at a store with one unsent row. -/
theorem C8_notification_atomic_witness :
    unsentProjects c8DB ≠ []
    ∧ (∀ row ∈ (send_email_notification true true c8DB).1, row.is_sent = true) := by
  refine ⟨by decide, ((C8_notification_atomic c8DB).2.2 (by decide)).1⟩

/-- One collect step preserves pairwise-distinct hashes. -/
theorem collectStep_pairwise (digest : String → String) (acc : List RawResult)
    (it : SearchItem)
    (h : List.Pairwise (fun a b => a.content_hash ≠ b.content_hash) acc) :
    List.Pairwise (fun a b => a.content_hash ≠ b.content_hash) (collectStep digest acc it) := by
  unfold collectStep
  by_cases hdup : (acc.any
      (fun prev => prev.content_hash = (mkRawResult digest it).content_hash)) = true
  · rw [if_pos hdup]
    exact h
  · rw [if_neg hdup]
    rw [List.pairwise_append]
    refine ⟨h, List.pairwise_singleton _ _, ?_⟩
    intro a ha b hb
    rw [List.mem_singleton.mp hb]
    simp only [List.any_eq_true, decide_eq_true_eq, not_exists, not_and] at hdup
    exact hdup a ha

/-- C9 (confirmed): the result list assembled by the search loop never
contains two entries with equal content hash — an item whose hash already
occurred in the run is skipped (before its page would be fetched). -/
theorem C9_intra_run_dedup : ∀ (digest : String → String) (items : List SearchItem),
    List.Pairwise (fun a b => a.content_hash ≠ b.content_hash)
      (search_collect digest items) := by
  have aux : ∀ (digest : String → String) (items : List SearchItem) (acc : List RawResult),
      List.Pairwise (fun a b => a.content_hash ≠ b.content_hash) acc →
      List.Pairwise (fun a b => a.content_hash ≠ b.content_hash)
        (items.foldl (collectStep digest) acc) := by
    intro digest items
    induction items with
    | nil => exact fun acc h => h
    | cons it rest ih =>
      intro acc h
      exact ih (collectStep digest acc it) (collectStep_pairwise digest acc it h)
  exact fun digest items => aux digest items [] List.Pairwise.nil

/-- Membership through the stable descending insertion. -/
theorem mem_insertByScoreDesc (x a : ScoredResult) :
    ∀ l, a ∈ insertByScoreDesc x l ↔ a = x ∨ a ∈ l := by
  intro l
  induction l with
  | nil => simp [insertByScoreDesc]
  | cons y ys ih =>
    unfold insertByScoreDesc
    by_cases h : y.score < x.score
    · rw [if_pos h]
      simp
    · rw [if_neg h]
      simp only [List.mem_cons, ih]
      tauto

/-- Membership through the sorting fold. -/
theorem mem_sortFold (a : ScoredResult) :
    ∀ (l acc : List ScoredResult),
      a ∈ l.foldl (fun acc x => insertByScoreDesc x acc) acc ↔ a ∈ l ∨ a ∈ acc := by
  intro l
  induction l with
  | nil => simp
  | cons x xs ih =>
    intro acc
    simp only [List.foldl_cons, ih, mem_insertByScoreDesc, List.mem_cons]
    tauto

/-- Sorting by score preserves membership. -/
theorem mem_sortByScoreDesc (a : ScoredResult) (l : List ScoredResult) :
    a ∈ sortByScoreDesc l ↔ a ∈ l := by
  unfold sortByScoreDesc
  rw [mem_sortFold]
  simp

/-- The evaluation-loop body with its tuple components spelled out. -/
theorem evalStep_eq (sw : List String) (today : String) (xs : List ScoredResult)
    (cdb ldb : List MentionRec) (r : RawResult) :
    evalStep sw today (xs, cdb, ldb) r
      = (if 30 ≤ (evalOne sw r).score then xs ++ [evalOne sw r] else xs,
        upsertAll today cdb (evalOne sw r).companies,
        upsertAll today ldb (evalOne sw r).locationsRaw) := by
  simp only [evalStep]

/-- The relevant-list component of the evaluation fold is the filtered map
of the scorer, independent of the stores. -/
theorem evalFold_relevant (sw : List String) (today : String) :
    ∀ (rs : List RawResult) (xs : List ScoredResult) (cdb ldb : List MentionRec),
      (rs.foldl (evalStep sw today) (xs, cdb, ldb)).1
        = xs ++ (rs.map (evalOne sw)).filter (fun s => decide (30 ≤ s.score)) := by
  intro rs
  induction rs with
  | nil => intro xs cdb ldb; simp
  | cons r rest ih =>
    intro xs cdb ldb
    simp only [List.foldl_cons]
    rw [evalStep_eq]
    by_cases h : 30 ≤ (evalOne sw r).score
    · rw [if_pos h, ih]
      simp [List.map_cons, List.filter_cons, decide_eq_true h, List.append_assoc]
    · rw [if_neg h, ih]
      simp [List.map_cons, List.filter_cons, decide_eq_false h]

/-- The company-store component of the evaluation fold is the pure upsert
fold over all results — it does not depend on the acceptance test. -/
theorem evalFold_companies (sw : List String) (today : String) :
    ∀ (rs : List RawResult) (xs : List ScoredResult) (cdb ldb : List MentionRec),
      (rs.foldl (evalStep sw today) (xs, cdb, ldb)).2.1
        = rs.foldl (fun db r => upsertAll today db (evalCompanies r)) cdb := by
  intro rs
  induction rs with
  | nil => intro xs cdb ldb; rfl
  | cons r rest ih =>
    intro xs cdb ldb
    simp only [List.foldl_cons]
    rw [evalStep_eq, ih]
    rfl

/-- Characterisation of the SQL upsert: the mention count of the upserted
name increases by one (from the column default 1 when absent) and the
last-seen date becomes the current day. -/
theorem upsertMention_count : ∀ (today : String) (db : List MentionRec) (name : String),
    mentionCount (upsertMention today db name) name = mentionCount db name + 1
    ∧ lastSeenDate (upsertMention today db name) name = some today := by
  intro today db name
  induction db with
  | nil =>
    constructor
    · simp [upsertMention, mentionCount, List.find?]
    · simp [upsertMention, lastSeenDate, List.find?]
  | cons rec rest ih =>
    by_cases h : rec.name = name
    · constructor
      · simp [upsertMention, h, mentionCount, List.find?]
      · simp [upsertMention, h, lastSeenDate, List.find?]
    · constructor
      · simpa [upsertMention, h, mentionCount, List.find?] using ih.1
      · simpa [upsertMention, h, lastSeenDate, List.find?] using ih.2

/-- Every fallback candidate kept by the harvesting fold has length
between 4 and 39 characters. -/
theorem fbAppend_fold_length :
    ∀ (caps : List (List Char)) (acc : List String),
      (∀ c ∈ acc, 4 ≤ c.length ∧ c.length ≤ 39) →
      ∀ c ∈ caps.foldl fbAppend acc, 4 ≤ c.length ∧ c.length ≤ 39 := by
  intro caps
  induction caps with
  | nil => intro acc hacc c hc; exact hacc c hc
  | cons cap rest ih =>
    intro acc hacc c hc
    refine ih (fbAppend acc cap) ?_ c hc
    intro x hx
    unfold fbAppend at hx
    by_cases hcond : 3 < (String.mk cap).length ∧ (String.mk cap).length < 40
        ∧ ¬ acc.contains (String.mk cap)
    · rw [if_pos hcond] at hx
      rcases List.mem_append.mp hx with hxa | hxn
      · exact hacc x hxa
      · rw [List.mem_singleton.mp hxn]
        exact ⟨hcond.1, Nat.lt_succ_iff.mp hcond.2.1⟩
    · rw [if_neg hcond] at hx
      exact hacc x hx

/-- C10 (confirmed): when pattern-based company extraction comes back
empty, the scorer harvests capitalised phrases from the title with the
language-specific fallback pattern, keeps exactly the matches of length
4-39 characters not already collected, and these candidates earn the +25
company bonus and drive the mention upserts exactly as pattern-extracted
companies would. -/
theorem C10_title_fallback : ∀ (sw : List String) (today : String) (r : RawResult)
    (rel : List ScoredResult) (cdb ldb : List MentionRec),
    extract_company_names (contentToCheck r) (evalLang r) = [] →
      evalCompanies r = fallbackCompanies (evalLang r) r.title
      ∧ (∀ c ∈ fallbackCompanies (evalLang r) r.title, 4 ≤ c.length ∧ c.length ≤ 39)
      ∧ (fallbackCompanies (evalLang r) r.title ≠ [] → 25 ≤ evalScore sw r)
      ∧ (evalStep sw today (rel, cdb, ldb) r).2.1 = upsertAll today cdb (evalCompanies r) := by
  intro sw today r rel cdb ldb h
  have hcomp : evalCompanies r = fallbackCompanies (evalLang r) r.title := by
    unfold evalCompanies
    rw [h]
    rfl
  refine ⟨hcomp, ?_, ?_, ?_⟩
  · unfold fallbackCompanies
    exact fbAppend_fold_length _ [] (fun c hc => absurd hc (List.not_mem_nil c))
  · intro hne
    have hemp : (evalCompanies r).isEmpty = false := by
      rw [hcomp]
      cases hfb : fallbackCompanies (evalLang r) r.title with
      | nil => exact absurd hfb hne
      | cons a l => rfl
    unfold evalScore
    rw [hemp]
    simp only [Bool.false_eq_true, if_false]
    omega
  · rw [evalStep_eq]
    rfl

/-- Witness for C10: a result with no pattern match whose title yields the
fallback candidate. -/
theorem C10_title_fallback_witness :
    extract_company_names (contentToCheck c10Result) (evalLang c10Result) = []
    ∧ evalCompanies c10Result = fallbackCompanies (evalLang c10Result) c10Result.title
    ∧ 25 ≤ evalScore fallbackStopWords c10Result := by
  have h : extract_company_names (contentToCheck c10Result) (evalLang c10Result) = [] := by
    decide
  have hmain := C10_title_fallback fallbackStopWords "2026-10-12" c10Result [] [] [] h
  exact ⟨h, hmain.1, hmain.2.2.1 (by decide)⟩

/-- C4 (confirmed): the relevance score is a non-negative integer, a
result enters the relevant list exactly when its score is at least 30, and
at the boundary a result scoring exactly 30 is accepted while a result
scoring 29 is rejected. -/
theorem C4_relevance_threshold :
    (∀ (sw : List String) (r : RawResult), 0 ≤ evalScore sw r)
    ∧ (∀ (sw : List String) (today : String) (rs : List RawResult)
        (cdb ldb : List MentionRec) (s : ScoredResult),
        s ∈ (evaluate_relevance sw today rs cdb ldb).1
          ↔ ∃ r, r ∈ rs ∧ evalOne sw r = s ∧ 30 ≤ s.score)
    ∧ evalScore fallbackStopWords ex30Result = 30
    ∧ evalOne fallbackStopWords ex30Result
        ∈ (evaluate_relevance fallbackStopWords "2026-10-12" [ex30Result] [] []).1
    ∧ evalScore fallbackStopWords ex29Result = 29
    ∧ (evaluate_relevance fallbackStopWords "2026-10-12" [ex29Result] [] []).1 = [] := by
  have hmem : ∀ (sw : List String) (today : String) (rs : List RawResult)
      (cdb ldb : List MentionRec) (s : ScoredResult),
      s ∈ (evaluate_relevance sw today rs cdb ldb).1
        ↔ ∃ r, r ∈ rs ∧ evalOne sw r = s ∧ 30 ≤ s.score := by
    intro sw today rs cdb ldb s
    unfold evaluate_relevance
    rw [mem_sortByScoreDesc, evalFold_relevant]
    simp only [List.nil_append, List.mem_filter, List.mem_map, decide_eq_true_eq]
    constructor
    · rintro ⟨⟨r, hr, hrs⟩, hscore⟩
      exact ⟨r, hr, hrs, hscore⟩
    · rintro ⟨r, hr, hrs, hscore⟩
      exact ⟨⟨r, hr, hrs⟩, hscore⟩
  have h30 : evalScore fallbackStopWords ex30Result = 30 := by decide
  refine ⟨fun sw r => Nat.zero_le _, hmem, h30, ?_, by decide, by decide⟩
  exact (hmem fallbackStopWords "2026-10-12" [ex30Result] [] []
        (evalOne fallbackStopWords ex30Result)).mpr
    ⟨ex30Result, List.mem_singleton.mpr rfl, rfl, by rw [show (evalOne fallbackStopWords
      ex30Result).score = evalScore fallbackStopWords ex30Result from rfl, h30]⟩

/-- C6 (confirmed): the company-mention store is updated by an upsert for
every extracted company of every processed result — create with count 1
when new, else increment and refresh the last-seen date — independently of
the acceptance threshold; in particular the Scenario-D result scoring 25
(company found, no location, no keywords) is rejected while its company's
mention count is still incremented. -/
theorem C6_mention_upserts :
    (∀ (sw : List String) (today : String) (rs : List RawResult)
        (cdb ldb : List MentionRec),
      (evaluate_relevance sw today rs cdb ldb).2.1
        = rs.foldl (fun db r => upsertAll today db (evalCompanies r)) cdb)
    ∧ (∀ (today : String) (db : List MentionRec) (name : String),
      mentionCount (upsertMention today db name) name = mentionCount db name + 1
      ∧ lastSeenDate (upsertMention today db name) name = some today)
    ∧ evalScore fallbackStopWords c6Result = 25
    ∧ evalCompanies c6Result = ["KPMG"]
    ∧ evalLocationsRaw c6Result = []
    ∧ keywordPoints ((contentToCheck c6Result).data.map pyLowerChar) = 0
    ∧ (evaluate_relevance fallbackStopWords "2026-10-12" [c6Result] c6DB []).1 = []
    ∧ (evaluate_relevance fallbackStopWords "2026-10-12" [c6Result] c6DB []).2.1
        = [{ name := "KPMG", mention_count := 4, last_seen_date := "2026-10-12" }] := by
  refine ⟨?_, upsertMention_count, by decide, by decide, by decide, by decide,
    by decide, by decide⟩
  intro sw today rs cdb ldb
  unfold evaluate_relevance
  exact evalFold_companies sw today rs [] cdb ldb

/-- C1 (code bug): for Scenario A's text the watch-list contains "PwC" and
the text contains it verbatim, yet the extracted company candidate set is
empty — the final `len > 3` filter of `extract_company_names` (line 485)
throws the 3-character watch-list name away after the watch-list pass
added it, and the title-fallback candidates are longer phrases, so the
pipeline's candidate set never contains "PwC".  The remaining Scenario-A
facts hold: the location candidates include "Athens", the project type is
"New Office", the size is "1200 sq.m" and the language is "en". -/
theorem C1_scenarioA_extraction :
    "PwC" ∈ EXAMPLE_COMPANIES
    ∧ containsSub "PwC".data scenarioA.data = true
    ∧ extract_company_names scenarioA "en" = []
    ∧ "PwC" ∉ evalCompanies scenarioAResult
    ∧ extract_locations scenarioA "en" = ["Athens"]
    ∧ extract_project_type scenarioA "en" = "New Office"
    ∧ extract_size scenarioA = some "1200 sq.m"
    ∧ detect_language scenarioA = "en"
    ∧ evalLang scenarioAResult = "en" := by
  refine ⟨by decide, by decide, by decide, by decide, by decide, by decide, by decide,
    by decide, by decide⟩

end OfficeTracker
